import Mathlib

/-!
# Verification of the notification decision pipeline

A shallow embedding of the decision pipeline (validator, history store,
duplicate detector, rule engine, keyword classifier, scheduler, logger and
the orchestrating decision engine) of the `email_agent` repository, together
with theorems settling the specification claims.

Modelling conventions:
* UTC instants are integer seconds since the Unix epoch (`Int := Int`).
  All Python `datetime` values in the pipeline are UTC; calendar fields are
  recovered arithmetically.  Sub-second precision is not exercised by any
  claim and is dropped.
* Python `float` values (similarity ratios, thresholds, confidences) are
  modelled as exact rationals (`ℚ`).
* Python dict lookups with defaults become `Option` plus `getD`; string
  truthiness (`if s:`) becomes `s ≠ ""` on present values.
* `uuid.uuid4()` (used only to default a missing `event_id`) is modelled as
  a caller-supplied fresh identifier.
* The wall clock `datetime.now(timezone.utc)` read by the history store is
  an explicit parameter `now`.
* Unicode NFKD normalisation inside `normalize_text` is the identity on the
  ASCII texts covered by this development and is modelled as such.
-/

namespace EmailAgent

/-! ## Time: UTC seconds since the epoch

UTC instants are plain `Int` values (seconds since the Unix epoch). -/

/-- Python `datetime.date` index: days since the epoch (floor division;
integer `/` on `Int` is Euclidean division, which agrees with Python's
floor division for the positive divisors used here). -/
def dayIndex (t : Int) : Int := t / 86400

/-- Midnight (00:00:00) of the calendar day containing `t`. -/
def dayStart (t : Int) : Int := 86400 * (t / 86400)

/-- Python `datetime.hour`. -/
def hourOf (t : Int) : Int := (t / 3600) % 24

/-- Python `datetime.minute`. -/
def minuteOf (t : Int) : Int := (t / 60) % 60

/-- Python `datetime.second`. -/
def secondOf (t : Int) : Int := t % 60

/-! ## ISO-8601 parsing and formatting

Modelled from the documented behaviour of `datetime.fromisoformat` /
`datetime.isoformat`, restricted to the `YYYY-MM-DDTHH:MM:SS` and
`YYYY-MM-DDTHH:MM:SS+00:00` forms actually used with this pipeline (the
validator first rewrites a `Z` suffix to `+00:00`).  Timestamps without an
offset are modelled as UTC instants. -/

def isLeapYear (y : Int) : Bool := (y % 4 == 0 && y % 100 != 0) || (y % 400 == 0)

def daysInMonth (y m : Int) : Int :=
  if m = 2 then (if isLeapYear y then 29 else 28)
  else if m = 4 ∨ m = 6 ∨ m = 9 ∨ m = 11 then 30
  else 31

/-- Days from the epoch for a civil date (Howard Hinnant's algorithm;
valid for the four-digit years accepted by the parser). -/
def daysFromCivil (y m d : Int) : Int :=
  let yy := if m ≤ 2 then y - 1 else y
  let era := (if yy ≥ 0 then yy else yy - 399) / 400
  let yoe := yy - era * 400
  let mp := (m + 9) % 12
  let doy := (153 * mp + 2) / 5 + d - 1
  let doe := yoe * 365 + yoe / 4 - yoe / 100 + doy
  era * 146097 + doe - 719468

/-- Civil date `(year, month, day)` of an epoch day index. -/
def civilFromDays (z0 : Int) : Int × Int × Int :=
  let z := z0 + 719468
  let era := (if z ≥ 0 then z else z - 146096) / 146097
  let doe := z - era * 146097
  let yoe := (doe - doe / 1460 + doe / 36524 - doe / 146096) / 365
  let y := yoe + era * 400
  let doy := doe - (365 * yoe + yoe / 4 - yoe / 100)
  let mp := (5 * doy + 2) / 153
  let d := doy - (153 * mp + 2) / 5 + 1
  let m := if mp < 10 then mp + 3 else mp - 9
  (if m ≤ 2 then y + 1 else y, m, d)

def digitVal (c : Char) : Int := (c.toNat : Int) - 48

def digits2 (a b : Char) : Option Int :=
  if a.isDigit && b.isDigit then some (10 * digitVal a + digitVal b) else none

def digits4 (a b c d : Char) : Option Int :=
  if a.isDigit && b.isDigit && c.isDigit && d.isDigit then
    some (1000 * digitVal a + 100 * digitVal b + 10 * digitVal c + digitVal d)
  else none

def dashChar : Char := '-'
def colonChar : Char := ':'
def upperT : Char := 'T'
def upperZ : Char := 'Z'
def spaceChar : Char := Char.ofNat 32
def newlineChar : Char := Char.ofNat 10
def underscoreChar : Char := Char.ofNat 95
def percentChar : Char := Char.ofNat 37

/-- Range checks of `datetime`: year ≥ 1, valid month/day, 24h clock. -/
def buildCivil (y mo d h mi se : Int) : Option Int :=
  if 1 ≤ y ∧ 1 ≤ mo ∧ mo ≤ 12 ∧ 1 ≤ d ∧ d ≤ daysInMonth y mo ∧
      0 ≤ h ∧ h ≤ 23 ∧ 0 ≤ mi ∧ mi ≤ 59 ∧ 0 ≤ se ∧ se ≤ 59 then
    some (86400 * daysFromCivil y mo d + 3600 * h + 60 * mi + se)
  else none

def parseIsoCore : List Char → Option Int
  | [y1, y2, y3, y4, s1, a1, a2, s2, b1, b2, s3, c1, c2, s4, d1, d2, s5, e1, e2] =>
    if s1 = dashChar ∧ s2 = dashChar ∧ s3 = upperT ∧ s4 = colonChar ∧ s5 = colonChar then
      match digits4 y1 y2 y3 y4, digits2 a1 a2, digits2 b1 b2,
          digits2 c1 c2, digits2 d1 d2, digits2 e1 e2 with
      | some y, some mo, some d, some h, some mi, some se => buildCivil y mo d h mi se
      | _, _, _, _, _, _ => none
    else none
  | _ => none

/-- Python `str.replace("Z", "+00:00")` (single-character pattern). -/
def replaceZ (s : String) : String :=
  String.mk (s.data.flatMap (fun c => if c = upperZ then "+00:00".data else [c]))

def parseIso (s0 : String) : Option Int :=
  let cs := (replaceZ s0).data
  if cs.length = 19 then parseIsoCore cs
  else if cs.length = 25 ∧ cs.drop 19 = "+00:00".data then parseIsoCore (cs.take 19)
  else none

def pad2 (n : Int) : String := if n < 10 then "0" ++ toString n else toString n

def pad4 (n : Int) : String :=
  if n < 10 then "000" ++ toString n
  else if n < 100 then "00" ++ toString n
  else if n < 1000 then "0" ++ toString n
  else toString n

/-- `datetime.isoformat()` of a UTC-aware instant. -/
def isoFormat (t : Int) : String :=
  let ymd := civilFromDays (t / 86400)
  pad4 ymd.1 ++ "-" ++ pad2 ymd.2.1 ++ "-" ++ pad2 ymd.2.2 ++ "T" ++
    pad2 (hourOf t) ++ ":" ++ pad2 (minuteOf t) ++ ":" ++ pad2 (secondOf t) ++ "+00:00"

/-! ## Configuration constants (`config.py`) -/

def DEDUPE_WINDOW_MINUTES : Int := 10
def TEXT_SIMILARITY_THRESHOLD : ℚ := 9/10
def FREQUENCY_WINDOW_MINUTES : Int := 10
def FREQUENCY_LIMIT : ℕ := 5
def HISTORY_BUFFER_SIZE : ℕ := 30
def NOISE_LIMIT_MAX_URGENT : ℕ := 2
def NOISE_LIMIT_WINDOW_MINUTES : Int := 15
def QUIET_HOUR_START : Int := 22
def QUIET_HOUR_END : Int := 6
def QUIET_RESUME_HOUR : Int := 8
def BASE_BACKOFF_MINUTES : Int := 5
def DEFAULT_WORKING_HOUR : Int := 9

def FALLBACK_MAP : List (String × String) :=
  [("urgent", "NOW"), ("high", "NOW"), ("medium", "LATER"), ("low", "NEVER")]

def FALLBACK_EVENT_TYPE_MAP : List (String × String) :=
  [("alert", "NOW"), ("system", "NOW"), ("message", "LATER"), ("reminder", "LATER"),
   ("update", "LATER"), ("email", "LATER"), ("promotion", "NEVER")]

/-! ## Text normalisation (`duplicate_detector.normalize_text`) -/

/-- Python regex `\w` (ASCII fragment): letters, digits, underscore. -/
def isWordChar (c : Char) : Bool := c.isAlphanum || c = underscoreChar

/-- Python `str.lower()` (ASCII fragment). -/
def lowerStr (s : String) : String := String.mk (s.data.map Char.toLower)

/-- Python `str.strip()`. -/
def trimStr (s : String) : String :=
  String.mk (((s.data.dropWhile Char.isWhitespace).reverse.dropWhile Char.isWhitespace).reverse)

/-- Python slicing `s[:n]` by characters. -/
def takeStr (n : ℕ) (s : String) : String := String.mk (s.data.take n)

/-- `re.sub(r'\s+', ' ', ·)`: every maximal whitespace run becomes one space. -/
def collapseWs : Bool → List Char → List Char
  | _, [] => []
  | inWs, c :: cs =>
    if c.isWhitespace then
      (if inWs then collapseWs true cs else spaceChar :: collapseWs true cs)
    else c :: collapseWs false cs

/-- Lowercase, NFKD-normalise (identity here), drop `[^\w\s]`, collapse
whitespace runs, strip. -/
def normalize_text (s : String) : String :=
  let lowered := lowerStr s
  let kept := lowered.data.filter (fun c => isWordChar c || c.isWhitespace)
  trimStr (String.mk (collapseWs false kept))

/-! ## Levenshtein similarity (`duplicate_detector.levenshtein_ratio`)

The dynamic programme of the source keeps one row `matrix` of length
`len2 + 1` and sweeps it once per character of `s1`, rotating the previous
diagonal cell through `prev`.  `levRowAux` is the inner `for j` loop,
`levRows` the outer `for i` loop. -/

def levRowAux (c : Char) : List Char → ℕ → ℕ → List ℕ → List ℕ
  | [], _, _, _ => []
  | _ :: _, _, _, [] => []
  | y :: ys, diag, left, r :: rs =>
    (if c = y then diag else 1 + min diag (min r left))
      :: levRowAux c ys r (if c = y then diag else 1 + min diag (min r left)) rs

def levRows (s2 : List Char) : List Char → ℕ → List ℕ → List ℕ
  | [], _, row => row
  | c :: cs, i, row =>
    match row with
    | [] => []
    | r0 :: rs => levRows s2 cs (i + 1) ((i + 1) :: levRowAux c s2 r0 (i + 1) rs)

/-- The row left by the sweep; initially `list(range(len2 + 1))`. -/
def dpMatrix (s1 s2 : List Char) : List ℕ := levRows s2 s1 0 (List.range (s2.length + 1))

/-- `matrix[len2]`: the edit distance computed by the source. -/
def dpDist (s1 s2 : List Char) : ℕ := (dpMatrix s1 s2).getD s2.length 0

/-- The length gate of the source compares IEEE doubles, not exact
rationals: `abs(len1 - len2) / max(len1, len2) > (1 - TEXT_SIMILARITY_THRESHOLD)`.
The literal `0.9` is the double `8106479329266893 / 2^53`, and the
subtraction `1 - 0.9` is exact in doubles (Sterbenz), yielding exactly
`7205759403792792 / 2^56 ≈ 0.09999999999999998`.  A Python int/int division
is correctly rounded to nearest, ties to even; since that mantissa is even,
the double comparison `round(d/m) > (1 - 0.9)` holds exactly when the true
rational quotient `d/m` exceeds the midpoint between that double and its
successor, i.e. `14411518807585585 / 2^57`.  In particular the gate already
fires at a quotient of exactly `1/10` (e.g. lengths 9 and 10), where an
exact-rational reading of `> 1 - 9/10` would not. -/
def FLOAT_GATE_CUTOFF : ℚ := 14411518807585585 / 2 ^ 57

/-- Normalized Levenshtein similarity ratio (0..1). -/
def levenshtein_ratio (s1 s2 : String) : ℚ :=
  if s1 = s2 then 1
  else if s1 = "" ∨ s2 = "" then 0
  else
    let len1 : ℚ := s1.data.length
    let len2 : ℚ := s2.data.length
    if |len1 - len2| / max len1 len2 > FLOAT_GATE_CUTOFF then 0
    else 1 - (dpDist s1.data s2.data : ℚ) / max len1 len2

/-! ## History store (`history_store.py`)

A per-user `deque(maxlen=HISTORY_BUFFER_SIZE)` of record dicts, modelled
as a total map from user ids to lists (the `defaultdict` default is `[]`).
Window cutoffs are taken against the wall clock `now`. -/

structure HistRecord where
  event_id : String
  event_type : String
  source : String
  decision : String
  explanation_code : String
  dedupe_key : Option String
  normalized_text : String
  parsed_timestamp : Int
  timestamp : String
  deriving Repr, DecidableEq

abbrev HistFun := String → List HistRecord

/-- `deque.append` with `maxlen`: evicts from the left when full. -/
def dequeAppend (cap : ℕ) (l : List HistRecord) (r : HistRecord) : List HistRecord :=
  let l2 := l ++ [r]
  l2.drop (l2.length - cap)

/-- Records of a user within the last `window_minutes` minutes of `now`
(cutoff inclusive). -/
def get_recent (hist : HistFun) (now : Int) (user_id : String)
    (window_minutes : Int) : List HistRecord :=
  (hist user_id).filter (fun r => decide (r.parsed_timestamp ≥ now - 60 * window_minutes))

def count_in_window (hist : HistFun) (now : Int) (user_id : String)
    (window_minutes : Int) : ℕ :=
  (get_recent hist now user_id window_minutes).length

def count_urgent_by_source_or_type (hist : HistFun) (now : Int) (user_id : String)
    (event_type source : String) (window_minutes : Int) : ℕ :=
  ((get_recent hist now user_id window_minutes).filter
    (fun r => r.decision == "NOW" && (r.event_type == event_type || r.source == source))).length

def get_dedupe_key_entries (hist : HistFun) (now : Int) (user_id : String)
    (dedupe_key : String) (window_minutes : Int) : List HistRecord :=
  (get_recent hist now user_id window_minutes).filter (fun r => r.dedupe_key == some dedupe_key)

def get_text_entries (hist : HistFun) (now : Int) (user_id : String)
    (window_minutes : Int) : List HistRecord :=
  (get_recent hist now user_id window_minutes).filter (fun r => r.normalized_text ≠ "")

/-- Records of the user (no window) whose timestamp falls on today's UTC date. -/
def count_event_type_today (hist : HistFun) (now : Int) (user_id : String)
    (event_type : String) : ℕ :=
  ((hist user_id).filter
    (fun r => r.event_type == event_type &&
      dayIndex r.parsed_timestamp == dayIndex now)).length

/-! ## Events and validation (`input_validator.py`) -/

structure Event where
  event_id : String
  user_id : String
  event_type : String
  title : String
  message : String
  source : String
  priority_hint : Option String
  timestamp : String
  parsed_timestamp : Int
  channel : String
  metadata : List (String × String)
  dedupe_key : Option String
  expires_at : Option Int
  deriving Repr, DecidableEq

/-- The untyped input mapping.  Fields absent from the dict are `none`. -/
structure RawEvent where
  event_id : Option String := none
  user_id : Option String := none
  event_type : Option String := none
  title : Option String := none
  message : Option String := none
  source : Option String := none
  priority_hint : Option String := none
  timestamp : Option String := none
  channel : Option String := none
  metadata : Option (List (String × String)) := none
  dedupe_key : Option String := none
  expires_at : Option String := none
  deriving Repr, DecidableEq

def VALID_EVENT_TYPES : List String :=
  ["message", "reminder", "alert", "promotion", "system", "update", "email"]
def VALID_CHANNELS : List String := ["push", "email", "sms", "in_app"]
def VALID_PRIORITY_HINTS : List String := ["low", "medium", "high", "urgent"]

/-- Python truthiness of an optional string field. -/
def strTruthy : Option String → Bool
  | some s => s ≠ ""
  | none => false

/-- `field in event and event[field]`: a present, non-empty value. -/
def req (o : Option String) : Option String :=
  match o with
  | some s => if s = "" then none else some s
  | none => none

/-- `validate_event`: required fields, enumerated sets, timestamp parsing,
defaults.  `freshId` models the generated `uuid4` for a missing `event_id`. -/
def validate_event (freshId : String) (e : RawEvent) : Except String Event :=
  match req e.user_id with
  | none => .error "Missing required field: user_id"
  | some uid =>
  match req e.event_type with
  | none => .error "Missing required field: event_type"
  | some etype =>
  match req e.message with
  | none => .error "Missing required field: message"
  | some msg =>
  match req e.timestamp with
  | none => .error "Missing required field: timestamp"
  | some tstr =>
  match req e.channel with
  | none => .error "Missing required field: channel"
  | some chan =>
  if etype ∉ VALID_EVENT_TYPES then .error ("Invalid event_type: " ++ etype)
  else if chan ∉ VALID_CHANNELS then .error ("Invalid channel: " ++ chan)
  else
    match parseIso tstr with
    | none => .error ("Invalid timestamp format: " ++ tstr)
    | some ts =>
      let normalized : Event :=
        { event_id := e.event_id.getD freshId
          user_id := uid
          event_type := etype
          title := e.title.getD ""
          message := msg
          source := e.source.getD "unknown"
          priority_hint := e.priority_hint
          timestamp := isoFormat ts
          parsed_timestamp := ts
          channel := chan
          metadata := e.metadata.getD []
          dedupe_key := e.dedupe_key
          expires_at := none }
      if (match normalized.priority_hint with
          | some p => p ≠ "" && decide (p ∉ VALID_PRIORITY_HINTS)
          | none => false) then
        .error "Invalid priority_hint"
      else
        match e.expires_at with
        | some es =>
          if es = "" then .ok normalized
          else
            match parseIso es with
            | none => .error ("Invalid expires_at format: " ++ es)
            | some exp => .ok { normalized with expires_at := some exp }
        | none => .ok normalized

/-! ## Duplicate detector (`duplicate_detector.DuplicateDetector.check`) -/

structure DupResult where
  is_duplicate : Bool
  duplicate_type : Option String
  matched_event_id : Option String
  deriving Repr, DecidableEq

/-- The dedupe-key candidates of `DuplicateDetector.check` step 1 (empty
when the event carries no non-empty `dedupe_key`). -/
def key_matches (hist : HistFun) (now : Int) (e : Event) : List HistRecord :=
  match e.dedupe_key with
  | some k =>
    if k = "" then []
    else get_dedupe_key_entries hist now e.user_id k DEDUPE_WINDOW_MINUTES
  | none => []

def dedup_check (hist : HistFun) (now : Int) (e : Event) : DupResult :=
  let keyMatches := key_matches hist now e
  if keyMatches = [] then
    let event_text := normalize_text (trimStr (e.title ++ " " ++ e.message))
    if event_text = "" then
      { is_duplicate := false, duplicate_type := none, matched_event_id := none }
    else
      match (get_text_entries hist now e.user_id DEDUPE_WINDOW_MINUTES).find?
          (fun r => decide (levenshtein_ratio event_text r.normalized_text ≥
            TEXT_SIMILARITY_THRESHOLD)) with
      | some r =>
        { is_duplicate := true, duplicate_type := some "DUPLICATE_TEXT_SIMILAR",
          matched_event_id := some r.event_id }
      | none => { is_duplicate := false, duplicate_type := none, matched_event_id := none }
  else
    { is_duplicate := true, duplicate_type := some "DUPLICATE_DEDUPE_KEY",
      matched_event_id := keyMatches.getLast?.map (fun r => r.event_id) }

/-! ## Keyword classifier (`llm_classifier.py`)

Each regex of the source is hand-compiled to a matcher over the lowercase
text.  `scanStr` tries a match at every position (the semantics of
`re.search`); `boundaryOk`/`afterOk` are the `\b` assertions at the edges
of the patterns (all patterns start, and where a trailing `\b` occurs end,
with word characters — except the `NN%` patterns, whose trailing `\b`
after `%` demands a following word character). -/

def scanAux (f : Option Char → List Char → Bool) : Option Char → List Char → Bool
  | prev, [] => f prev []
  | prev, c :: cs => f prev (c :: cs) || scanAux f (some c) cs

def scanStr (f : Option Char → List Char → Bool) (s : List Char) : Bool := scanAux f none s

def boundaryOk (prev : Option Char) : Bool :=
  match prev with
  | none => true
  | some c => !isWordChar c

def afterOk : List Char → Bool
  | [] => true
  | c :: _ => !isWordChar c

/-- `\bw\b` for a word `w` made of word characters. -/
def matchWord (w : String) (s : List Char) : Bool :=
  scanStr (fun prev rest =>
    boundaryOk prev && w.data.isPrefixOf rest && afterOk (rest.drop w.data.length)) s

/-- `\bw` (prefix patterns such as `\bverif`, `\bexpir`, `\bcrash`,
`\bschedul`, `\bpromo`). -/
def matchPre (w : String) (s : List Char) : Bool :=
  scanStr (fun prev rest => boundaryOk prev && w.data.isPrefixOf rest) s

/-- `\bNN%\b`: since `%` is not a word character, the trailing `\b` holds
only when a word character follows. -/
def matchPct (w : String) (s : List Char) : Bool :=
  scanStr (fun prev rest =>
    boundaryOk prev && w.data.isPrefixOf rest &&
    (match rest.drop w.data.length with
     | c :: _ => isWordChar c
     | [] => false)) s

/-- `\b\d+%\s*off\b`. -/
def matchPctOff (s : List Char) : Bool :=
  scanStr (fun prev rest =>
    boundaryOk prev &&
    (let ds := rest.takeWhile Char.isDigit
     !ds.isEmpty &&
     (match rest.drop ds.length with
      | c :: rest2 =>
        c = percentChar &&
        (let rest3 := rest2.drop (rest2.takeWhile Char.isWhitespace).length
         "off".data.isPrefixOf rest3 && afterOk (rest3.drop 3))
      | [] => false))) s

/-- `\blimited.?time\b` (`.` does not match a newline). -/
def matchLimitedTime (s : List Char) : Bool :=
  scanStr (fun prev rest =>
    boundaryOk prev && "limited".data.isPrefixOf rest &&
    (let r2 := rest.drop 7
     ("time".data.isPrefixOf r2 && afterOk (r2.drop 4)) ||
     (match r2 with
      | c :: r3 => c ≠ newlineChar && "time".data.isPrefixOf r3 && afterOk (r3.drop 4)
      | [] => false))) s

def URGENT_KEYWORDS : List (List Char → Bool) :=
  [matchWord "otp", matchWord "password", matchWord "2fa", matchPre "verif",
   matchWord "down", matchWord "outage", matchWord "critical", matchWord "emergency",
   matchWord "security", matchWord "breach", matchWord "failure", matchWord "failed",
   matchPre "expir", matchWord "blocked", matchWord "unauthorized",
   matchPct "95%", matchPct "100%", matchPct "99%", matchWord "overload",
   matchPre "crash", matchWord "error", matchWord "alert"]

def PROMO_KEYWORDS : List (List Char → Bool) :=
  [matchWord "sale", matchWord "discount", matchPctOff, matchWord "flat",
   matchPre "promo", matchWord "coupon", matchWord "deal", matchWord "offer",
   matchWord "free", matchWord "clearance", matchLimitedTime]

def LATER_KEYWORDS : List (List Char → Bool) :=
  [matchWord "reminder", matchWord "submit", matchWord "update", matchWord "weekly",
   matchWord "monthly", matchWord "summary", matchWord "digest", matchWord "newsletter",
   matchWord "report", matchPre "schedul"]

structure Classification where
  label : String
  confidence : ℚ
  raw_output : String
  used_fallback : Bool
  explanation_code : String
  deriving Repr, DecidableEq

/-- Python `round(q, 2)`.  (`round` of the source acts on binary floats
with banker's rounding; the pipeline's confidences never sit on a tie, so
half-up rounding over `ℚ` is faithful where it matters.) -/
def round2 (q : ℚ) : ℚ := (round (q * 100) : ℤ) / 100

/-- Python `f"{q:.2f}"` on the nonnegative confidences of this pipeline. -/
def fmt2 (q : ℚ) : String :=
  let n := round (q * 100)
  let f := (n % 100).toNat
  toString (n / 100) ++ "." ++ (if f < 10 then "0" ++ toString f else toString f)

/-- Python `"w" in text` (substring containment). -/
def containsSub (w : String) (s : List Char) : Bool :=
  scanStr (fun _ rest => w.data.isPrefixOf rest) s

/-- `LLMClassifier._build_reason`. -/
def build_reason (text : List Char) (score : ℕ) (event_type : String)
    (priority : Option String) : String :=
  let parts : List String :=
    (if containsSub "otp" text then ["contains OTP"] else []) ++
    (if containsSub "down" text then ["service outage detected"] else []) ++
    (if matchPct "95%" text || matchPct "100%" text || matchPct "99%" text then
      ["resource threshold critical"] else []) ++
    (if priority = some "urgent" then ["priority=urgent"] else []) ++
    (if event_type = "alert" ∨ event_type = "system" then
      ["event_type=" ++ event_type] else [])
  let parts := if parts.isEmpty then ["urgency score=" ++ toString score] else parts
  "Urgent: " ++ String.intercalate ", " parts

/-- `LLMClassifier._fallback`. -/
def llm_fallback (e : Event) (why : String) : Classification :=
  let label :=
    match e.priority_hint.bind (fun p => FALLBACK_MAP.lookup p) with
    | some l => l
    | none => (FALLBACK_EVENT_TYPE_MAP.lookup e.event_type).getD "LATER"
  { label := label
    confidence := 2/5
    raw_output := "FALLBACK: " ++ why ++ " → " ++ label
    used_fallback := true
    explanation_code := "FALLBACK" }

/-- The keyword scores of `LLMClassifier._llm_classify` after the
structured-field boosts: `(urgent_score, promo_score, later_score)`. -/
def keyword_scores (e : Event) : ℕ × ℕ × ℕ :=
  let text := (lowerStr (e.title ++ " " ++ e.message)).data
  let urgent0 := URGENT_KEYWORDS.countP (fun m => m text)
  let promo0 := PROMO_KEYWORDS.countP (fun m => m text)
  let later0 := LATER_KEYWORDS.countP (fun m => m text)
  let urgent1 := urgent0 +
    (if e.priority_hint = some "urgent" then 3
     else if e.priority_hint = some "high" then 2 else 0)
  let promo1 := promo0 + (if e.priority_hint = some "low" then 2 else 0)
  let urgent2 := urgent1 + (if e.event_type = "alert" ∨ e.event_type = "system" then 2 else 0)
  let promo2 := promo1 + (if e.event_type = "promotion" then 3 else 0)
  let later1 := later0 + (if e.event_type = "reminder" then 2 else 0)
  let urgent3 := urgent2 + (if e.channel = "sms" then 1 else 0)
  (urgent3, promo2, later1)

/-- `LLMClassifier._llm_classify`: keyword scores, structured-field boosts,
label selection, confidence. -/
def llm_classify_core (e : Event) : Classification :=
  let text := (lowerStr (e.title ++ " " ++ e.message)).data
  let urgent3 := (keyword_scores e).1
  let promo2 := (keyword_scores e).2.1
  let later1 := (keyword_scores e).2.2
  let total : ℕ := max (urgent3 + promo2 + later1) 1
  let picked : String × ℚ × String × String :=
    if urgent3 > promo2 ∧ urgent3 > later1 then
      ("NOW", min (1/2 + ((urgent3 : ℚ) / total) * (1/2)) (99/100),
       (if urgent3 ≥ 2 then "URGENT_KEYWORD" else "LLM_DECISION"),
       build_reason text urgent3 e.event_type e.priority_hint)
    else if promo2 > urgent3 ∧ promo2 > later1 then
      ("NEVER", min (1/2 + ((promo2 : ℚ) / total) * (1/2)) (99/100), "LLM_DECISION",
       "Promotional content detected (score=" ++ toString promo2 ++ ")")
    else if later1 > 0 then
      ("LATER", min (1/2 + ((later1 : ℚ) / total) * (2/5)) (19/20), "LLM_DECISION",
       "Non-urgent, schedulable content (score=" ++ toString later1 ++ ")")
    else
      ((FALLBACK_EVENT_TYPE_MAP.lookup e.event_type).getD "LATER", 1/2, "LLM_DECISION",
       "Default classification for " ++ e.event_type)
  { label := picked.1
    confidence := round2 picked.2.1
    raw_output := "LABEL:" ++ picked.1 ++ "; SHORT_REASON:" ++ picked.2.2.2 ++
      "; CONFIDENCE:" ++ fmt2 picked.2.1
    used_fallback := false
    explanation_code := picked.2.2.1 }

/-- `LLMClassifier.classify`.  The `try/except` wrapper of the source is
unreachable in this total model; `simulate_failure` selects the fallback. -/
def llm_classify (simulate_failure : Bool) (e : Event) : Classification :=
  if simulate_failure then llm_fallback e "LLM service simulated failure"
  else llm_classify_core e

/-! ## Rule engine (`rule_engine.py`) -/

structure TimeWindow where
  start_hour : Option Int := none
  end_hour : Option Int := none
  deriving Repr, DecidableEq

/-- The `match` object of a rule (absent keys are `none`). -/
structure RuleMatchCond where
  event_type : Option (List String) := none
  priority_hint : Option (List String) := none
  channel : Option (List String) := none
  source : Option (List String) := none
  time_window : Option TimeWindow := none
  deriving Repr, DecidableEq

structure RuleAction where
  force_decision : Option String := none
  downgrade : Option (List (String × String)) := none
  limit_per_day : Option Int := none
  deriving Repr, DecidableEq

structure Rule where
  id : Option String := none
  priority : Option Int := none
  description : Option String := none
  matchCond : RuleMatchCond := {}
  action : RuleAction := {}
  deriving Repr, DecidableEq

/-- Loading sorts by `priority` descending (`rule.get("priority", 0)`);
Python's stable sort with `reverse=True` keeps load order on ties, as does
`mergeSort` with a `≥` comparator. -/
def loadRules (rules_data : List Rule) : List Rule :=
  rules_data.mergeSort (fun a b => decide (a.priority.getD 0 ≥ b.priority.getD 0))

/-- An entry of the list returned by `RuleEngine.match`. -/
structure MatchedRule where
  rule_id : String
  rule : Rule
  action : RuleAction
  deriving Repr, DecidableEq

/-- `RuleEngine._matches_rule`. -/
def matches_rule (e : Event) (r : Rule) : Bool :=
  (match r.matchCond.event_type with
   | some l => decide (e.event_type ∈ l)
   | none => true) &&
  (match r.matchCond.priority_hint with
   | some l => (match e.priority_hint with
                | some p => decide (p ∈ l)
                | none => false)
   | none => true) &&
  (match r.matchCond.channel with
   | some l => decide (e.channel ∈ l)
   | none => true) &&
  (match r.matchCond.source with
   | some l => decide (e.source ∈ l)
   | none => true) &&
  (match r.matchCond.time_window with
   | some tw =>
     let hour := hourOf e.parsed_timestamp
     let startH := tw.start_hour.getD 0
     let endH := tw.end_hour.getD 24
     if startH > endH then decide (hour ≥ startH) || decide (hour < endH)
     else decide (startH ≤ hour) && decide (hour < endH)
   | none => true)

/-- `RuleEngine.match` over the (already sorted) rule list. -/
def rules_match (rules : List Rule) (e : Event) : List MatchedRule :=
  (rules.filter (matches_rule e)).map
    (fun r => { rule_id := r.id.getD "unknown", rule := r, action := r.action })

structure RuleApplyResult where
  decision : String
  explanation_code : Option String
  matched_rule_id : Option String
  reason : Option String
  deriving Repr, DecidableEq

/-- The `downgrade` block of the `apply_actions` loop body: when the
current decision is a key of the mapping, both the running decision and
the result record move to the mapped value. -/
def downgrade_step (rule_id rule_desc : String) (dg : Option (List (String × String)))
    (current : String) (res : RuleApplyResult) : String × RuleApplyResult :=
  match dg with
  | some dgl =>
    match dgl.lookup current with
    | some newD =>
      (newD,
       { decision := newD, explanation_code := some "RULE_OVERRIDE",
         matched_rule_id := some rule_id,
         reason := some ("Rule " ++ rule_id ++ ": " ++ rule_desc ++
           " (downgraded " ++ current ++ " → " ++ newD ++ ")") })
    | none => (current, res)
  | none => (current, res)

/-- The loop body of `RuleEngine.apply_actions`: `force_decision` returns
immediately; `downgrade` rewrites the running decision and continues;
`limit_per_day` checks today's per-type count and may return `NEVER`. -/
def apply_actions_loop (hist : HistFun) (now : Int) (e : Event) :
    List MatchedRule → String → RuleApplyResult → RuleApplyResult
  | [], _, res => res
  | m :: ms, current, res =>
    let rule_desc := (m.rule.description.getD "")
    match m.action.force_decision with
    | some fd =>
      { decision := fd, explanation_code := some "RULE_OVERRIDE",
        matched_rule_id := some m.rule_id,
        reason := some ("Rule " ++ m.rule_id ++ ": " ++ rule_desc) }
    | none =>
      let afterDowngrade := downgrade_step m.rule_id rule_desc m.action.downgrade current res
      match m.action.limit_per_day with
      | some limit =>
        let cnt := count_event_type_today hist now e.user_id e.event_type
        if (cnt : Int) ≥ limit then
          { decision := "NEVER", explanation_code := some "RULE_OVERRIDE",
            matched_rule_id := some m.rule_id,
            reason := some ("Rule " ++ m.rule_id ++ ": " ++ rule_desc ++
              " — daily limit " ++ toString limit ++ " reached (" ++
              toString cnt ++ " today)") }
        else apply_actions_loop hist now e ms afterDowngrade.1 afterDowngrade.2
      | none => apply_actions_loop hist now e ms afterDowngrade.1 afterDowngrade.2

def apply_actions (hist : HistFun) (now : Int) (e : Event)
    (matched : List MatchedRule) (current_decision : String) : RuleApplyResult :=
  apply_actions_loop hist now e matched current_decision
    { decision := current_decision, explanation_code := none,
      matched_rule_id := none, reason := none }

/-! ## Scheduler (`scheduler.py`)

The source returns `scheduled.isoformat()`, the sentinel string
`"EXPIRED"`, or `None` (a dead branch, since every path assigns a
datetime).  The result is modelled as `SchedResult`; the engine renders
the instant with `isoFormat`. -/

inductive SchedResult where
  | expired
  | time (t : Int)
  deriving Repr, DecidableEq

def is_quiet_hour (hour : Int) : Bool :=
  if QUIET_HOUR_START > QUIET_HOUR_END then
    decide (hour ≥ QUIET_HOUR_START) || decide (hour < QUIET_HOUR_END)
  else decide (QUIET_HOUR_START ≤ hour) && decide (hour < QUIET_HOUR_END)

/-- `ts + timedelta(days=1)` then `replace(hour=QUIET_RESUME_HOUR, minute=0,
second=0, microsecond=0)`. -/
def next_morning (ts : Int) : Int := dayStart (ts + 86400) + 3600 * QUIET_RESUME_HOUR

def next_working_hour (ts : Int) : Int :=
  if hourOf ts < DEFAULT_WORKING_HOUR then dayStart ts + 3600 * DEFAULT_WORKING_HOUR
  else dayStart (ts + 86400) + 3600 * DEFAULT_WORKING_HOUR

def compute_scheduled_time (e : Event) (explanation_code : String)
    (frequency_count : ℕ) : SchedResult :=
  let ts := e.parsed_timestamp
  let scheduled : Int :=
    if explanation_code = "RULE_OVERRIDE" then
      (if is_quiet_hour (hourOf ts) then next_morning ts else ts + 60 * 15)
    else if explanation_code = "FREQUENCY_LIMIT" then
      ts + 60 * (BASE_BACKOFF_MINUTES * max 1 ((frequency_count : Int) - 3))
    else if e.event_type = "reminder" then next_working_hour ts
    else ts + 60 * 15
  match e.expires_at with
  | some exp => if scheduled > exp then SchedResult.expired else SchedResult.time scheduled
  | none => SchedResult.time scheduled

/-! ## Logger (`logger.py`) -/

structure LogEntry where
  user_id : String
  event_id : String
  event_type : String
  decision : String
  scheduled_time : Option String
  timestamp : String
  explanation_code : String
  reason : String
  matched_rule_id : Option String
  confidence : ℚ
  raw_model_output : String
  deriving Repr, DecidableEq

def logger_log (e : Event) (decision : String) (scheduled_time : Option String)
    (explanation_code reason : String) (matched_rule_id : Option String)
    (confidence : ℚ) (raw_model_output : String) : LogEntry :=
  { user_id := e.user_id
    event_id := e.event_id
    event_type := e.event_type
    decision := decision
    scheduled_time := scheduled_time
    timestamp := e.timestamp
    explanation_code := explanation_code
    reason := reason
    matched_rule_id := matched_rule_id
    confidence := round2 confidence
    raw_model_output := raw_model_output }

/-- The echoed input of the output record: the validated event stripped of
its internal fields (`parsed_timestamp`, `event_id`). -/
structure CleanEvent where
  user_id : String
  event_type : String
  title : String
  message : String
  source : String
  priority_hint : Option String
  timestamp : String
  channel : String
  metadata : List (String × String)
  dedupe_key : Option String
  expires_at : Option Int
  deriving Repr, DecidableEq

/-- On a validation failure the raw input mapping itself is echoed. -/
inductive InputEcho where
  | rawEv (r : RawEvent)
  | clean (c : CleanEvent)
  deriving Repr, DecidableEq

def clean_input (e : Event) : CleanEvent :=
  { user_id := e.user_id
    event_type := e.event_type
    title := e.title
    message := e.message
    source := e.source
    priority_hint := e.priority_hint
    timestamp := e.timestamp
    channel := e.channel
    metadata := e.metadata
    dedupe_key := e.dedupe_key
    expires_at := e.expires_at }

structure OutputRecord where
  input_event : InputEcho
  decision : String
  scheduled_time : Option String
  explanation_code : String
  reason : String
  matched_rule_id : Option String
  deriving Repr, DecidableEq

/-- `DecisionLogger.get_output_record`. -/
def get_output_record (e : Event) (entry : LogEntry) : OutputRecord :=
  { input_event := InputEcho.clean (clean_input e)
    decision := entry.decision
    scheduled_time := entry.scheduled_time
    explanation_code := entry.explanation_code
    reason := entry.reason
    matched_rule_id := entry.matched_rule_id }

/-! ## Decision engine (`decision_engine.py`) -/

/-- Mutable engine state: per-user history, the logger's `logs` list, and
the classifier's `_call_count`. -/
structure EngineState where
  history : HistFun
  logs : List LogEntry
  llm_calls : ℕ

def emptyState : EngineState := { history := fun _ => [], logs := [], llm_calls := 0 }

/-- `DecisionEngine._record_history`. -/
def mk_record (e : Event) (decision explanation_code : String) : HistRecord :=
  { event_id := e.event_id
    event_type := e.event_type
    source := e.source
    decision := decision
    explanation_code := explanation_code
    dedupe_key := e.dedupe_key
    normalized_text := normalize_text (trimStr (e.title ++ " " ++ e.message))
    parsed_timestamp := e.parsed_timestamp
    timestamp := e.timestamp }

def record_history (st : EngineState) (e : Event) (decision explanation_code : String) :
    EngineState :=
  let newList := dequeAppend HISTORY_BUFFER_SIZE (st.history e.user_id)
    (mk_record e decision explanation_code)
  { st with history := Function.update st.history e.user_id newList }

/-- The working decision/code/reason triple threaded through steps 4-7. -/
structure Work where
  decision : String
  code : String
  reason : String
  deriving Repr, DecidableEq

/-- Step 4: apply matched rules; a fired rule (non-null explanation code)
replaces decision, code, reason and records the rule id. -/
def step_rules (hist : HistFun) (now : Int) (e : Event)
    (matched : List MatchedRule) (w : Work) : Work × Option String :=
  if matched.isEmpty then (w, none)
  else
    let rr := apply_actions hist now e matched w.decision
    match rr.explanation_code with
    | some c => ({ decision := rr.decision, code := c, reason := rr.reason.getD "" },
                 rr.matched_rule_id)
    | none => (w, none)

/-- Step 5: frequency / alert-fatigue damping. -/
def step_frequency (user_id : String) (freq_count : ℕ) (w : Work) : Work :=
  if freq_count ≥ FREQUENCY_LIMIT then
    if w.decision = "NOW" then
      { decision := "LATER", code := "FREQUENCY_LIMIT",
        reason := "Downgraded NOW→LATER: user " ++ user_id ++ " received " ++
          toString freq_count ++ " notifications in last " ++
          toString FREQUENCY_WINDOW_MINUTES ++ " min" }
    else if w.decision = "LATER" ∧ freq_count ≥ FREQUENCY_LIMIT + 2 then
      { decision := "NEVER", code := "FREQUENCY_SUPPRESSION",
        reason := "Suppressed: user " ++ user_id ++ " received " ++
          toString freq_count ++ " notifications (fatigue threshold)" }
    else w
  else w

/-- Step 6: conflict / noise resolution. -/
def step_noise (hist : HistFun) (now : Int) (e : Event) (w : Work) : Work :=
  if w.decision = "NOW" then
    let urgent_count := count_urgent_by_source_or_type hist now e.user_id
      e.event_type e.source NOISE_LIMIT_WINDOW_MINUTES
    if urgent_count ≥ NOISE_LIMIT_MAX_URGENT then
      { decision := "LATER", code := "CONFLICT_NOISE_LIMIT",
        reason := "Noise limit: " ++ toString urgent_count ++ " urgent " ++
          e.event_type ++ " events from " ++ e.source ++ " in last " ++
          toString NOISE_LIMIT_WINDOW_MINUTES ++ " min (limit=" ++
          toString NOISE_LIMIT_MAX_URGENT ++ ")" }
    else w
  else w

/-- Step 7: scheduling; `EXPIRED` turns a `LATER` into `NEVER`. -/
def step_schedule (e : Event) (freq_count : ℕ) (w : Work) : Work × Option String :=
  if w.decision = "LATER" then
    match compute_scheduled_time e w.code freq_count with
    | SchedResult.expired =>
      ({ decision := "NEVER", code := "EXPIRED",
         reason := "Scheduled time exceeds expires_at — notification expired" }, none)
    | SchedResult.time t => (w, some (isoFormat t))
  else (w, none)

/-- Steps 3-7: classification, rules, frequency, noise, scheduling.
Returns the final work triple, the scheduled time, and the matched rule
id. -/
def main_outcome (rules : List Rule) (simulate_failure : Bool) (now : Int)
    (hist : HistFun) (e : Event) : Work × Option String × Option String :=
  let cls := llm_classify simulate_failure e
  let matched := rules_match rules e
  let sr := step_rules hist now e matched
    { decision := cls.label, code := cls.explanation_code, reason := cls.raw_output }
  let freq_count := count_in_window hist now e.user_id FREQUENCY_WINDOW_MINUTES
  let w2 := step_frequency e.user_id freq_count sr.1
  let w3 := step_noise hist now e w2
  let ws := step_schedule e freq_count w3
  (ws.1, ws.2, sr.2)

/-- Steps 2-8 of `process_event`, after successful validation. -/
def process_validated (rules : List Rule) (simulate_failure : Bool) (now : Int)
    (st : EngineState) (event : Event) : OutputRecord × EngineState :=
  let dup := dedup_check st.history now event
  if dup.is_duplicate then
    let explanation_code := dup.duplicate_type.getD ""
    let matchedShort : String :=
      match dup.matched_event_id with
      | some m => if m = "" then "unknown" else takeStr 8 m
      | none => "unknown"
    let reason := "Duplicate suppressed: " ++ explanation_code ++
      " (matched " ++ matchedShort ++ ")"
    let entry := logger_log event "NEVER" none explanation_code reason none 0 ""
    let st1 := { st with logs := st.logs ++ [entry] }
    let st2 := record_history st1 event "NEVER" explanation_code
    (get_output_record event entry, st2)
  else
    let cls := llm_classify simulate_failure event
    let st1 := { st with llm_calls := st.llm_calls + 1 }
    let mo := main_outcome rules simulate_failure now st.history event
    let entry := logger_log event mo.1.decision mo.2.1 mo.1.code mo.1.reason mo.2.2
      cls.confidence cls.raw_output
    let st2 := { st1 with logs := st1.logs ++ [entry] }
    let st3 := record_history st2 event mo.1.decision mo.1.code
    (get_output_record event entry, st3)

/-- `DecisionEngine.process_event`: validate, then run the pipeline.  On a
validation failure the error record is returned and no state is touched. -/
def process_event (rules : List Rule) (simulate_failure : Bool) (now : Int)
    (freshId : String) (st : EngineState) (raw : RawEvent) :
    OutputRecord × EngineState :=
  match validate_event freshId raw with
  | .error msg =>
    ({ input_event := InputEcho.rawEv raw
       decision := "NEVER"
       scheduled_time := none
       explanation_code := "VALIDATION_ERROR"
       reason := "Invalid event: " ++ msg
       matched_rule_id := none }, st)
  | .ok event => process_validated rules simulate_failure now st event

/-! ## Levenshtein distance: the dynamic programme computes the textbook
edit distance

The reference definition is Mathlib's `levenshtein` with the unit cost
structure (`Levenshtein.defaultCost`).  The row sweep of the source is
related to it by an invariant over reversed prefixes, and a reversal
identity transports the result to the original strings. -/

abbrev levC : Levenshtein.Cost Char Char ℕ := Levenshtein.defaultCost

/-- The Levenshtein edit distance with unit costs (the reference). -/
def lev (xs ys : List Char) : ℕ := levenshtein levC xs ys

lemma lev_nil_left (ys : List Char) : lev [] ys = ys.length := by
  induction ys with
  | nil => simp [lev, levenshtein_nil_nil]
  | cons y ys ih => simp [lev, levenshtein_nil_cons] at *; omega

lemma lev_nil_right (xs : List Char) : lev xs [] = xs.length := by
  induction xs with
  | nil => simp [lev, levenshtein_nil_nil]
  | cons x xs ih => simp [lev, levenshtein_cons_nil] at *; omega

lemma lev_cons_cons (x y : Char) (xs ys : List Char) :
    lev (x :: xs) (y :: ys) =
      min (1 + lev xs (y :: ys))
        (min (1 + lev (x :: xs) ys) ((if x = y then 0 else 1) + lev xs ys)) := by
  simp [lev, levenshtein_cons_cons, Levenshtein.defaultCost]

set_option maxHeartbeats 2000000 in
/-- Peeling the last characters satisfies the same three-way recurrence. -/
lemma lev_snoc_snoc (x y : Char) : ∀ (n : ℕ) (xs ys : List Char), xs.length + ys.length ≤ n →
    lev (xs ++ [x]) (ys ++ [y]) =
      min (1 + lev xs (ys ++ [y]))
        (min (1 + lev (xs ++ [x]) ys) ((if x = y then 0 else 1) + lev xs ys)) := by
  intro n
  induction n with
  | zero =>
    intro xs ys h
    match xs, ys with
    | [], [] => simp [lev_cons_cons]
    | a :: as, bs => exact absurd h (by simp only [List.length_cons]; omega)
    | [], b :: bs => exact absurd h (by simp only [List.length_cons]; omega)
  | succ n ih =>
    intro xs ys h
    match xs, ys with
    | [], [] => simp [lev_cons_cons]
    | [], y1 :: ys1 =>
      have h1 := ih [] ys1 (by simp only [List.length_cons, List.length_nil] at h ⊢; omega)
      simp only [List.nil_append] at h1 ⊢
      rw [List.cons_append, lev_cons_cons x y1 ([] : List Char) (ys1 ++ [y]), h1,
          lev_cons_cons x y1 ([] : List Char) ys1]
      simp only [lev_nil_left, List.length_append, List.length_cons, List.length_nil]
      split_ifs <;> omega
    | x1 :: xs1, [] =>
      have h1 := ih xs1 [] (by simp only [List.length_cons, List.length_nil] at h ⊢; omega)
      simp only [List.nil_append] at h1 ⊢
      rw [List.cons_append, lev_cons_cons x1 y (xs1 ++ [x]) ([] : List Char), h1,
          lev_cons_cons x1 y xs1 ([] : List Char)]
      simp only [lev_nil_right, List.length_append, List.length_cons, List.length_nil]
      split_ifs <;> omega
    | x1 :: xs1, y1 :: ys1 =>
      have h1 := ih xs1 (y1 :: ys1)
        (by simp only [List.length_cons, List.length_nil] at h ⊢; omega)
      have h2 := ih (x1 :: xs1) ys1
        (by simp only [List.length_cons, List.length_nil] at h ⊢; omega)
      have h3 := ih xs1 ys1 (by simp only [List.length_cons, List.length_nil] at h ⊢; omega)
      simp only [List.cons_append] at h1 h2 ⊢
      rw [lev_cons_cons x1 y1 (xs1 ++ [x]) (ys1 ++ [y])]
      rw [h1]
      rw [h2]
      rw [h3]
      rw [lev_cons_cons x1 y1 xs1 (ys1 ++ [y])]
      rw [lev_cons_cons x1 y1 (xs1 ++ [x]) ys1]
      rw [lev_cons_cons x1 y1 xs1 ys1]
      refine le_antisymm ?_ ?_ <;>
        · simp only [le_min_iff, min_le_iff]
          split_ifs <;> omega

/-- The edit distance is invariant under reversing both strings. -/
lemma lev_reverse : ∀ (n : ℕ) (xs ys : List Char), xs.length + ys.length ≤ n →
    lev xs.reverse ys.reverse = lev xs ys := by
  intro n
  induction n with
  | zero =>
    intro xs ys h
    match xs, ys with
    | [], [] => rfl
    | a :: as, bs => exact absurd h (by simp only [List.length_cons]; omega)
    | [], b :: bs => exact absurd h (by simp only [List.length_cons]; omega)
  | succ n ih =>
    intro xs ys h
    match xs, ys with
    | [], ys => simp [lev_nil_left]
    | x :: xs, [] => simp [lev_nil_right]
    | x :: xs, y :: ys =>
      rw [List.reverse_cons, List.reverse_cons,
          lev_snoc_snoc x y (xs.reverse.length + ys.reverse.length) _ _ le_rfl]
      rw [← List.reverse_cons y ys, ← List.reverse_cons x xs]
      rw [ih xs (y :: ys) (by simp only [List.length_cons, List.length_nil] at h ⊢; omega),
          ih (x :: xs) ys (by simp only [List.length_cons, List.length_nil] at h ⊢; omega),
          ih xs ys (by simp only [List.length_cons, List.length_nil] at h ⊢; omega)]
      rw [lev_cons_cons]

lemma lev_le_cons_left (x : Char) (A B : List Char) : lev (x :: A) B ≤ 1 + lev A B := by
  cases B with
  | nil => rw [lev_nil_right, lev_nil_right]; simp; omega
  | cons b B => rw [lev_cons_cons]; exact min_le_left _ _

lemma lev_le_succ_cons_right (A B : List Char) (y : Char) : lev A B ≤ 1 + lev A (y :: B) := by
  induction A generalizing B with
  | nil => rw [lev_nil_left, lev_nil_left]; simp; omega
  | cons a A ih =>
    rw [lev_cons_cons a y A B]
    have k1 := lev_le_cons_left a A B
    have k2 := ih B
    omega

lemma lev_le_cons_right (y : Char) (A B : List Char) : lev A (y :: B) ≤ 1 + lev A B := by
  cases A with
  | nil => rw [lev_nil_left, lev_nil_left]; simp; omega
  | cons a A => rw [lev_cons_cons]; exact (min_le_right _ _).trans (min_le_left _ _)

lemma lev_le_succ_cons_left (A B : List Char) (x : Char) : lev A B ≤ 1 + lev (x :: A) B := by
  induction B generalizing A with
  | nil => rw [lev_nil_right, lev_nil_right]; simp; omega
  | cons b B ih =>
    rw [lev_cons_cons x b A B]
    have k1 := lev_le_cons_right b A B
    have k2 := ih A
    omega

/-- The cell update of the sweep (with the equal-characters shortcut)
computes the cons-recurrence value. -/
lemma lev_cell (c y : Char) (A B : List Char) :
    (if c = y then lev A B else 1 + min (lev A B) (min (lev A (y :: B)) (lev (c :: A) B)))
      = lev (c :: A) (y :: B) := by
  rw [lev_cons_cons c y A B]
  have h1 := lev_le_succ_cons_right A B y
  have h2 := lev_le_succ_cons_left A B c
  split_ifs <;> omega

/-- The distances a row should hold beyond column `B.length`:
entry `j` is the distance from `A` to the reversed prefix extended by the
next `j + 1` characters of `ys`. -/
def specRowFrom (A : List Char) : List Char → List Char → List ℕ
  | _, [] => []
  | B, y :: ys => lev A (y :: B) :: specRowFrom A (y :: B) ys

lemma levRowAux_spec (c : Char) (ys : List Char) : ∀ (B A : List Char),
    levRowAux c ys (lev A B) (lev (c :: A) B) (specRowFrom A B ys)
      = specRowFrom (c :: A) B ys := by
  induction ys with
  | nil => intro B A; rfl
  | cons y ys ih =>
    intro B A
    show levRowAux c (y :: ys) (lev A B) (lev (c :: A) B)
        (lev A (y :: B) :: specRowFrom A (y :: B) ys) = _
    rw [levRowAux]
    rw [lev_cell c y A B]
    rw [ih (y :: B) A]
    rfl

lemma levRows_spec (s2 : List Char) : ∀ (rest A : List Char),
    levRows s2 rest A.length (lev A [] :: specRowFrom A [] s2)
      = lev (rest.reverse ++ A) [] :: specRowFrom (rest.reverse ++ A) [] s2 := by
  intro rest
  induction rest with
  | nil => intro A; rfl
  | cons c cs ih =>
    intro A
    rw [levRows]
    have hl : A.length + 1 = lev (c :: A) [] := by
      rw [lev_nil_right]; simp
    rw [hl]
    rw [levRowAux_spec c s2 [] A]
    have hstep := ih (c :: A)
    rw [show (c :: A).length = A.length + 1 from by simp] at hstep
    rw [hl] at hstep
    rw [hstep]
    rw [List.reverse_cons, List.append_assoc, List.singleton_append]

lemma init_row : ∀ (ys B : List Char),
    lev [] B :: specRowFrom [] B ys
      = (List.range (ys.length + 1)).map (fun t => B.length + t) := by
  intro ys
  induction ys with
  | nil =>
    intro B
    show lev [] B :: specRowFrom [] B [] = List.map (fun t => B.length + t) [0]
    simp [lev_nil_left, specRowFrom]
  | cons y ys ih =>
    intro B
    rw [specRowFrom]
    have h := ih (y :: B)
    rw [show ((y :: ys).length + 1) = (ys.length + 1) + 1 from by simp]
    rw [List.range_succ_eq_map, List.map_cons, List.map_map]
    rw [lev_nil_left]
    refine congrArg₂ _ (by simp) ?_
    rw [h]
    refine congrArg₂ _ ?_ rfl
    funext t
    simp
    omega

/-- The value left in `matrix[len2]` by the sweep is the unit-cost
Levenshtein edit distance of the two strings. -/
theorem dpDist_eq_lev (s1 s2 : List Char) : dpDist s1 s2 = lev s1 s2 := by
  have hrow : ∀ (ys B A : List Char),
      (lev A B :: specRowFrom A B ys).getD ys.length 0 = lev A (ys.reverse ++ B) := by
    intro ys
    induction ys with
    | nil => intro B A; simp
    | cons y ys ih =>
      intro B A
      rw [specRowFrom]
      show (lev A (y :: B) :: specRowFrom A (y :: B) ys).getD ys.length 0 = _
      rw [ih (y :: B) A]
      rw [List.reverse_cons, List.append_assoc, List.singleton_append]
  have hinit := init_row s2 []
  rw [dpDist, dpMatrix]
  rw [show List.range (s2.length + 1) = lev [] [] :: specRowFrom [] [] s2 from by
    rw [hinit]; simp]
  have hspec := levRows_spec s2 s1 []
  simp only [List.length_nil, List.append_nil] at hspec
  rw [hspec]
  rw [hrow s2 [] s1.reverse]
  rw [List.append_nil]
  rw [lev_reverse (s1.length + s2.length) s1 s2 (by simp)]

/-! ## Ratio facts used by the duplicate claims -/

lemma levenshtein_ratio_self (s : String) : levenshtein_ratio s s = 1 := by
  unfold levenshtein_ratio
  simp

/-! ## Scheduler lemmas -/

/-- The branch structure of `compute_scheduled_time`: whenever a timestamp
(rather than the `EXPIRED` sentinel) is returned, it is the value of the
branch selected by the explanation code and event type. -/
lemma compute_scheduled_time_eq (e : Event) (code : String) (fc : ℕ) (t : Int)
    (h : compute_scheduled_time e code fc = SchedResult.time t) :
    t = (if code = "RULE_OVERRIDE" then
          (if is_quiet_hour (hourOf e.parsed_timestamp) then next_morning e.parsed_timestamp
           else e.parsed_timestamp + 60 * 15)
         else if code = "FREQUENCY_LIMIT" then
          e.parsed_timestamp + 60 * (BASE_BACKOFF_MINUTES * max 1 ((fc : Int) - 3))
         else if e.event_type = "reminder" then next_working_hour e.parsed_timestamp
         else e.parsed_timestamp + 60 * 15) := by
  simp only [compute_scheduled_time] at h
  generalize hs :
      (if code = "RULE_OVERRIDE" then
        (if is_quiet_hour (hourOf e.parsed_timestamp) then next_morning e.parsed_timestamp
         else e.parsed_timestamp + 60 * 15)
       else if code = "FREQUENCY_LIMIT" then
        e.parsed_timestamp + 60 * (BASE_BACKOFF_MINUTES * max 1 ((fc : Int) - 3))
       else if e.event_type = "reminder" then next_working_hour e.parsed_timestamp
       else e.parsed_timestamp + 60 * 15) = sched at h ⊢
  rcases hx : e.expires_at with _ | exp
  · simp only [hx] at h
    rw [SchedResult.time.injEq] at h
    exact h.symm
  · simp only [hx] at h
    split at h
    · simp at h
    · rw [SchedResult.time.injEq] at h
      exact h.symm

lemma is_quiet_hour_iff (hour : Int) :
    is_quiet_hour hour = true ↔ (hour ≥ QUIET_HOUR_START ∨ hour < QUIET_HOUR_END) := by
  unfold is_quiet_hour QUIET_HOUR_START QUIET_HOUR_END
  norm_num

/-- Claim C4: with explanation code `RULE_OVERRIDE`, an event whose hour
lies in the quiet range `[QUIET_HOUR_START, QUIET_HOUR_END)` (wrapping
midnight, since 22 > 6) is scheduled for the morning after the event's
calendar day at `QUIET_RESUME_HOUR` (08:00, minutes and seconds zero);
otherwise for the event timestamp plus 15 minutes. -/
theorem C4_rule_override_schedule (e : Event) (fc : ℕ) (t : Int)
    (h : compute_scheduled_time e "RULE_OVERRIDE" fc = SchedResult.time t) :
    ((hourOf e.parsed_timestamp ≥ QUIET_HOUR_START ∨
        hourOf e.parsed_timestamp < QUIET_HOUR_END) →
      dayIndex t = dayIndex e.parsed_timestamp + 1 ∧ hourOf t = QUIET_RESUME_HOUR ∧
        minuteOf t = 0 ∧ secondOf t = 0) ∧
    (¬(hourOf e.parsed_timestamp ≥ QUIET_HOUR_START ∨
        hourOf e.parsed_timestamp < QUIET_HOUR_END) →
      t = e.parsed_timestamp + 15 * 60) := by
  have ht := compute_scheduled_time_eq e "RULE_OVERRIDE" fc t h
  simp only [if_pos rfl] at ht
  constructor
  · intro hq
    rw [← is_quiet_hour_iff] at hq
    simp only [hq, eq_self_iff_true, if_true] at ht
    unfold next_morning dayStart QUIET_RESUME_HOUR at ht
    unfold dayIndex hourOf minuteOf secondOf QUIET_RESUME_HOUR
    omega
  · intro hq
    rw [← is_quiet_hour_iff] at hq
    have hqf : is_quiet_hour (hourOf e.parsed_timestamp) = false := by
      simpa using hq
    simp only [hqf] at ht
    simp at ht
    omega

/-- Claim C7: whenever `compute_scheduled_time` returns a timestamp (not
the `EXPIRED` sentinel), it is strictly after the event timestamp. -/
theorem C7_scheduled_after_timestamp (e : Event) (code : String) (fc : ℕ) (t : Int)
    (h : compute_scheduled_time e code fc = SchedResult.time t) :
    e.parsed_timestamp < t := by
  have ht := compute_scheduled_time_eq e code fc t h
  rw [ht]
  split_ifs with h1 h2 h3 h4
  · unfold next_morning dayStart QUIET_RESUME_HOUR
    omega
  · omega
  · unfold BASE_BACKOFF_MINUTES
    omega
  · unfold next_working_hour dayStart hourOf DEFAULT_WORKING_HOUR
    split_ifs with h5
    · omega
    · omega
  · omega

/-- A concrete already-validated event used by witnesses. -/
def wEvent : Event :=
  { event_id := "e1", user_id := "u1", event_type := "message", title := "",
    message := "hello", source := "unknown", priority_hint := none,
    timestamp := "1970-01-05T00:00:00+00:00", parsed_timestamp := 345600,
    channel := "push", metadata := [], dedupe_key := none, expires_at := none }

/-- A raw event that validates to exactly `wEvent`. -/
def wRaw : RawEvent :=
  { event_id := some "e1", user_id := some "u1", event_type := some "message",
    message := some "hello", timestamp := some "1970-01-05T00:00:00+00:00",
    channel := some "push" }

/-- Claim C7 witness: the concrete event is scheduled 15 minutes after its
timestamp, which is strictly later. -/
theorem C7_witness :
    compute_scheduled_time wEvent "LLM_DECISION" 0 = SchedResult.time 346500 ∧
    wEvent.parsed_timestamp < 346500 :=
  ⟨by decide, C7_scheduled_after_timestamp wEvent "LLM_DECISION" 0 346500 (by decide)⟩

/-- Claim C4 witness: the concrete event falls at hour 0 (a quiet hour) and
is scheduled at 08:00:00 of the next calendar day. -/
theorem C4_witness :
    (hourOf wEvent.parsed_timestamp ≥ QUIET_HOUR_START ∨
      hourOf wEvent.parsed_timestamp < QUIET_HOUR_END) ∧
    dayIndex 460800 = dayIndex wEvent.parsed_timestamp + 1 ∧
    hourOf 460800 = QUIET_RESUME_HOUR ∧ minuteOf 460800 = 0 ∧ secondOf 460800 = 0 :=
  ⟨by decide,
    (C4_rule_override_schedule wEvent 0 460800 (by decide)).1 (by decide)⟩

/-! ## Engine-level helper lemmas -/

/-- Every successfully validated event ends in exactly one history append
for its user: the new per-user list is a bounded append of one record
carrying the event's dedupe key, normalised text and timestamp. -/
lemma process_validated_history (rules : List Rule) (simFail : Bool) (now : Int)
    (st : EngineState) (e : Event) :
    ∃ d c : String,
      (process_validated rules simFail now st e).2.history =
        Function.update st.history e.user_id
          (dequeAppend HISTORY_BUFFER_SIZE (st.history e.user_id) (mk_record e d c)) := by
  unfold process_validated
  by_cases hd : (dedup_check st.history now e).is_duplicate
  · exact ⟨"NEVER", (dedup_check st.history now e).duplicate_type.getD "",
      by simp [hd, record_history]⟩
  · exact ⟨(main_outcome rules simFail now st.history e).1.decision,
      (main_outcome rules simFail now st.history e).1.code,
      by simp [hd, record_history]⟩

lemma step_schedule_spec (e : Event) (fc : ℕ) (w : Work) :
    ((step_schedule e fc w).2).isSome = true ↔
      ((step_schedule e fc w).1).decision = "LATER" := by
  unfold step_schedule
  by_cases h : w.decision = "LATER"
  · rw [if_pos h]
    cases hc : compute_scheduled_time e w.code fc with
    | expired =>
      dsimp only
      exact iff_of_false (by simp) (by decide)
    | time t => simp [h]
  · rw [if_neg h]
    simp [h]

lemma main_outcome_scheduled_iff (rules : List Rule) (simFail : Bool) (now : Int)
    (hist : HistFun) (e : Event) :
    ((main_outcome rules simFail now hist e).2.1).isSome = true ↔
      ((main_outcome rules simFail now hist e).1).decision = "LATER" := by
  unfold main_outcome
  exact step_schedule_spec e _ _

/-- Claim C5: the output record carries a non-null `scheduled_time` exactly
when its decision is `LATER` — over every rule set, clock, state and raw
input. -/
theorem C5_scheduled_iff_later (rules : List Rule) (simFail : Bool) (now : Int)
    (fid : String) (st : EngineState) (raw : RawEvent) :
    ((process_event rules simFail now fid st raw).1.scheduled_time).isSome = true ↔
      (process_event rules simFail now fid st raw).1.decision = "LATER" := by
  unfold process_event
  cases hv : validate_event fid raw with
  | error msg =>
    dsimp only
    exact iff_of_false (by simp) (by decide)
  | ok e =>
    unfold process_validated
    by_cases hd : (dedup_check st.history now e).is_duplicate
    · simp only [hd, if_true, get_output_record, logger_log]
      decide
    · simp only [hd, if_false, Bool.false_eq_true, get_output_record, logger_log]
      exact main_outcome_scheduled_iff rules simFail now st.history e

/-- Claim C6: a validated event appends exactly one history record to its
user's ring (also when suppressed as a duplicate) and leaves every other
user untouched; a validation failure appends nothing at all. -/
theorem C6_one_history_record (rules : List Rule) (simFail : Bool) (now : Int)
    (fid : String) (st : EngineState) (raw : RawEvent) :
    (∀ e : Event, validate_event fid raw = .ok e →
      (∃ r : HistRecord,
        (process_event rules simFail now fid st raw).2.history e.user_id =
          dequeAppend HISTORY_BUFFER_SIZE (st.history e.user_id) r) ∧
      (∀ u, u ≠ e.user_id →
        (process_event rules simFail now fid st raw).2.history u = st.history u)) ∧
    (∀ msg, validate_event fid raw = .error msg →
      (process_event rules simFail now fid st raw).2.history = st.history) := by
  constructor
  · intro e hv
    obtain ⟨d, c, hh⟩ := process_validated_history rules simFail now st e
    unfold process_event
    simp only [hv]
    rw [hh]
    constructor
    · exact ⟨mk_record e d c, Function.update_same _ _ _⟩
    · intro u hu
      exact Function.update_noteq hu _ _
  · intro msg hv
    unfold process_event
    simp only [hv]

/-- Claim C6 witness: the concrete valid event appends one record to its
user and nothing elsewhere; the concrete invalid event appends nothing. -/
theorem C6_witness :
    (∃ r : HistRecord,
      (process_event [] false 345600 "gen" emptyState wRaw).2.history "u1" =
        dequeAppend HISTORY_BUFFER_SIZE (emptyState.history "u1") r) ∧
    (process_event [] false 345600 "gen" emptyState {}).2.history = emptyState.history := by
  constructor
  · have h := (C6_one_history_record [] false 345600 "gen" emptyState wRaw).1 wEvent (by rfl)
    exact h.1
  · exact (C6_one_history_record [] false 345600 "gen" emptyState {}).2
      "Missing required field: user_id" (by rfl)

/-- Claim C9: a validation failure returns the `NEVER`/`VALIDATION_ERROR`
record echoing the raw input and leaves the whole engine state — history,
logger entries, classifier call count — unchanged. -/
theorem C9_validation_failure_pure (rules : List Rule) (simFail : Bool) (now : Int)
    (fid : String) (st : EngineState) (raw : RawEvent) (msg : String)
    (h : validate_event fid raw = .error msg) :
    process_event rules simFail now fid st raw =
      ({ input_event := InputEcho.rawEv raw, decision := "NEVER", scheduled_time := none,
         explanation_code := "VALIDATION_ERROR", reason := "Invalid event: " ++ msg,
         matched_rule_id := none }, st) := by
  unfold process_event
  simp only [h]

/-- Claim C9 witness: the empty raw event fails validation on `user_id` and
is processed without touching the state. -/
theorem C9_witness :
    process_event [] false 0 "gen" emptyState {} =
      ({ input_event := InputEcho.rawEv {}, decision := "NEVER", scheduled_time := none,
         explanation_code := "VALIDATION_ERROR",
         reason := "Invalid event: " ++ "Missing required field: user_id",
         matched_rule_id := none }, emptyState) :=
  C9_validation_failure_pure [] false 0 "gen" emptyState {}
    "Missing required field: user_id" (by rfl)

/-- Claim C10: for a successfully processed event the echoed `input_event`
is the validated event with exactly `parsed_timestamp` and `event_id`
removed; all eleven remaining fields are unchanged. -/
theorem C10_input_event_clean (rules : List Rule) (simFail : Bool) (now : Int)
    (fid : String) (st : EngineState) (raw : RawEvent) (e : Event)
    (h : validate_event fid raw = .ok e) :
    (process_event rules simFail now fid st raw).1.input_event =
      InputEcho.clean
        { user_id := e.user_id, event_type := e.event_type, title := e.title,
          message := e.message, source := e.source, priority_hint := e.priority_hint,
          timestamp := e.timestamp, channel := e.channel, metadata := e.metadata,
          dedupe_key := e.dedupe_key, expires_at := e.expires_at } := by
  unfold process_event
  simp only [h]
  unfold process_validated
  by_cases hd : (dedup_check st.history now e).is_duplicate
  · simp [hd, get_output_record, clean_input]
  · simp [hd, get_output_record, clean_input]

/-- Claim C10 witness: the concrete valid event is echoed with exactly the
two internal fields removed. -/
theorem C10_witness :
    (process_event [] false 345600 "gen" emptyState wRaw).1.input_event =
      InputEcho.clean
        { user_id := wEvent.user_id, event_type := wEvent.event_type,
          title := wEvent.title, message := wEvent.message, source := wEvent.source,
          priority_hint := wEvent.priority_hint, timestamp := wEvent.timestamp,
          channel := wEvent.channel, metadata := wEvent.metadata,
          dedupe_key := wEvent.dedupe_key, expires_at := wEvent.expires_at } :=
  C10_input_event_clean [] false 345600 "gen" emptyState wRaw wEvent (by rfl)

/-- Claim C3: two runs of `process_event` on identical history contents,
the same rule list, the same clock and the identical raw event produce the
same decision label and the same explanation code — regardless of the
accumulated logger entries and LLM call counts of the two states, which
the output record never reads. -/
theorem C3_two_run_determinism (rules : List Rule) (simFail : Bool) (now : Int)
    (fid : String) (st1 st2 : EngineState) (raw : RawEvent)
    (hh : st1.history = st2.history) :
    (process_event rules simFail now fid st1 raw).1.decision =
      (process_event rules simFail now fid st2 raw).1.decision ∧
    (process_event rules simFail now fid st1 raw).1.explanation_code =
      (process_event rules simFail now fid st2 raw).1.explanation_code := by
  have hrec : (process_event rules simFail now fid st1 raw).1 =
      (process_event rules simFail now fid st2 raw).1 := by
    unfold process_event
    cases hv : validate_event fid raw with
    | error msg => rfl
    | ok e =>
      dsimp only
      simp only [process_validated]
      rw [hh]
      split_ifs with hd <;> rfl
  exact ⟨congrArg OutputRecord.decision hrec,
    congrArg OutputRecord.explanation_code hrec⟩

/-- A logger entry used only to make the second state of the C3 witness
differ from the first in its accumulated logs. -/
def wLogEntry : LogEntry :=
  { user_id := "u0", event_id := "e0", event_type := "message",
    decision := "NOW", scheduled_time := none, timestamp := "",
    explanation_code := "LLM_DECISION", reason := "", matched_rule_id := none,
    confidence := 0, raw_model_output := "" }

/-- Claim C3 witness: two concrete states with the same (empty) history but
different logger contents and call counts give the same label and code. -/
theorem C3_witness :
    (process_event [] false 0 "gen" emptyState wRaw).1.decision =
      (process_event [] false 0 "gen"
        { history := fun _ => [], logs := [wLogEntry], llm_calls := 7 }
        wRaw).1.decision ∧
    (process_event [] false 0 "gen" emptyState wRaw).1.explanation_code =
      (process_event [] false 0 "gen"
        { history := fun _ => [], logs := [wLogEntry], llm_calls := 7 }
        wRaw).1.explanation_code :=
  C3_two_run_determinism [] false 0 "gen" emptyState
    { history := fun _ => [], logs := [wLogEntry], llm_calls := 7 } wRaw rfl

/-! ## Claim C8: the similarity ratio -/

/-- Claim C8 counterexample: when the cheap length gate fires, the ratio
is 0 rather than `1 − distance/max(len1, len2)` (which is 1/2 here), so
the universally quantified formula of the claim fails at `("a", "ab")`. -/
theorem C8_counterexample :
    levenshtein_ratio "a" "ab" ≠
      1 - (lev "a".data "ab".data : ℚ) /
        max ("a".data.length : ℚ) ("ab".data.length : ℚ) := by
  have h2 : lev "a".data "ab".data = 1 := by
    rw [← dpDist_eq_lev]
    rfl
  have h1 : levenshtein_ratio "a" "ab" = 0 := by
    have e1 : ("a" : String) ≠ "ab" := by decide
    have e2 : ¬(("a" : String) = "" ∨ ("ab" : String) = "") := by decide
    have e3 : |(("a" : String).data.length : ℚ) - (("ab" : String).data.length : ℚ)| /
        max (("a" : String).data.length : ℚ) (("ab" : String).data.length : ℚ) >
          FLOAT_GATE_CUTOFF := by
      norm_num [show ("a" : String).data.length = 1 from rfl,
        show ("ab" : String).data.length = 2 from rfl, FLOAT_GATE_CUTOFF]
    simp only [levenshtein_ratio]
    rw [if_neg e1, if_neg e2, if_pos e3]
  rw [h1, h2]
  norm_num [show ("a" : String).data.length = 1 from rfl,
    show ("ab" : String).data.length = 2 from rfl]

/-- Claim C8 (amended): `levenshtein_ratio` is 1 on identical strings, 0
when either string is empty, 0 — without computing any distance — when
the cheap length gate fires, and otherwise equals
`1 − distance / max(len1, len2)` where `distance` is the (unit-cost)
Levenshtein edit distance.  The gate is the double-precision comparison
`|len1 − len2| / max(len1, len2) > 1 − 0.9`: it holds exactly when the
rational quotient exceeds `FLOAT_GATE_CUTOFF ≈ 0.09999999999999998`, so it
already fires at a 10% length difference. -/
theorem C8_ratio_cases (s1 s2 : String) :
    (s1 = s2 → levenshtein_ratio s1 s2 = 1) ∧
    (s1 ≠ s2 → (s1 = "" ∨ s2 = "") → levenshtein_ratio s1 s2 = 0) ∧
    (s1 ≠ s2 → ¬(s1 = "" ∨ s2 = "") →
      |(s1.data.length : ℚ) - (s2.data.length : ℚ)| /
          max (s1.data.length : ℚ) (s2.data.length : ℚ) >
        FLOAT_GATE_CUTOFF →
      levenshtein_ratio s1 s2 = 0) ∧
    (s1 ≠ s2 → ¬(s1 = "" ∨ s2 = "") →
      ¬(|(s1.data.length : ℚ) - (s2.data.length : ℚ)| /
          max (s1.data.length : ℚ) (s2.data.length : ℚ) >
        FLOAT_GATE_CUTOFF) →
      levenshtein_ratio s1 s2 =
        1 - (lev s1.data s2.data : ℚ) /
          max (s1.data.length : ℚ) (s2.data.length : ℚ)) := by
  refine ⟨?_, ?_, ?_, ?_⟩
  · intro h
    simp only [levenshtein_ratio]
    rw [if_pos h]
  · intro h1 h2
    simp only [levenshtein_ratio]
    rw [if_neg h1, if_pos h2]
  · intro h1 h2 h3
    simp only [levenshtein_ratio]
    rw [if_neg h1, if_neg h2, if_pos h3]
  · intro h1 h2 h3
    simp only [levenshtein_ratio]
    rw [if_neg h1, if_neg h2, if_neg h3, dpDist_eq_lev]

/-- Claim C8 witness: on `("ab", "ba")` the gate does not fire and the
ratio is exactly `1 − distance/2`. -/
theorem C8_witness :
    levenshtein_ratio "ab" "ba" =
      1 - (lev "ab".data "ba".data : ℚ) /
        max ("ab".data.length : ℚ) ("ba".data.length : ℚ) :=
  (C8_ratio_cases "ab" "ba").2.2.2 (by decide) (by decide)
    (by norm_num [show ("ab" : String).data.length = 2 from rfl,
      show ("ba" : String).data.length = 2 from rfl, FLOAT_GATE_CUTOFF])

/-! ## Claim C1: decision labels -/

def DECISION_LABELS : List String := ["NOW", "LATER", "NEVER"]

/-- A rule action all of whose forced decisions and downgrade targets are
genuine decision labels. -/
def label_closed_action (a : RuleAction) : Prop :=
  (∀ fd, a.force_decision = some fd → fd ∈ DECISION_LABELS) ∧
  (∀ dg p, a.downgrade = some dg → p ∈ dg → p.2 ∈ DECISION_LABELS)

lemma lookup_mem : ∀ (l : List (String × String)) (a b : String),
    l.lookup a = some b → (a, b) ∈ l := by
  intro l
  induction l with
  | nil => intro a b h; simp [List.lookup] at h
  | cons x xs ih =>
    intro a b h
    obtain ⟨k, v⟩ := x
    rw [List.lookup] at h
    cases hak : a == k with
    | true =>
      rw [hak] at h
      simp only [Option.some.injEq] at h
      have : a = k := by simpa using hak
      simp [this, h]
    | false =>
      rw [hak] at h
      simp only at h
      exact List.mem_cons_of_mem _ (ih a b h)

lemma fallback_map_mem (p v : String) (h : FALLBACK_MAP.lookup p = some v) :
    v ∈ DECISION_LABELS := by
  have hm := lookup_mem FALLBACK_MAP p v h
  simp only [FALLBACK_MAP, List.mem_cons, List.not_mem_nil, or_false,
    Prod.mk.injEq] at hm
  rcases hm with ⟨_, rfl⟩ | ⟨_, rfl⟩ | ⟨_, rfl⟩ | ⟨_, rfl⟩ <;> decide

lemma fallback_etm_mem (p v : String) (h : FALLBACK_EVENT_TYPE_MAP.lookup p = some v) :
    v ∈ DECISION_LABELS := by
  have hm := lookup_mem FALLBACK_EVENT_TYPE_MAP p v h
  simp only [FALLBACK_EVENT_TYPE_MAP, List.mem_cons, List.not_mem_nil, or_false,
    Prod.mk.injEq] at hm
  rcases hm with ⟨_, rfl⟩ | ⟨_, rfl⟩ | ⟨_, rfl⟩ | ⟨_, rfl⟩ | ⟨_, rfl⟩ | ⟨_, rfl⟩ | ⟨_, rfl⟩ <;>
    decide

lemma fallback_etm_getD_mem (p : String) :
    (FALLBACK_EVENT_TYPE_MAP.lookup p).getD "LATER" ∈ DECISION_LABELS := by
  cases hl : FALLBACK_EVENT_TYPE_MAP.lookup p with
  | none => exact (by decide : ("LATER" : String) ∈ DECISION_LABELS)
  | some v => exact fallback_etm_mem p v hl

set_option maxHeartbeats 2000000 in
/-- The classifier only ever emits the three labels. -/
lemma llm_label_mem (simFail : Bool) (e : Event) :
    (llm_classify simFail e).label ∈ DECISION_LABELS := by
  unfold llm_classify
  split_ifs
  · unfold llm_fallback
    dsimp only
    cases hb : e.priority_hint.bind (fun p => FALLBACK_MAP.lookup p) with
    | some l =>
      obtain ⟨p, _, hp2⟩ := Option.bind_eq_some.mp hb
      exact fallback_map_mem p l hp2
    | none => exact fallback_etm_getD_mem e.event_type
  · unfold llm_classify_core
    dsimp only
    split_ifs <;>
      first
        | exact (by decide : ("NOW" : String) ∈ DECISION_LABELS)
        | exact (by decide : ("NEVER" : String) ∈ DECISION_LABELS)
        | exact (by decide : ("LATER" : String) ∈ DECISION_LABELS)
        | exact fallback_etm_getD_mem e.event_type

lemma downgrade_step_mem (rule_id rule_desc : String)
    (dg : Option (List (String × String))) (current : String) (res : RuleApplyResult)
    (hdg : ∀ dgl p, dg = some dgl → p ∈ dgl → p.2 ∈ DECISION_LABELS)
    (hcur : current ∈ DECISION_LABELS) (hres : res.decision ∈ DECISION_LABELS) :
    (downgrade_step rule_id rule_desc dg current res).1 ∈ DECISION_LABELS ∧
      ((downgrade_step rule_id rule_desc dg current res).2).decision ∈ DECISION_LABELS := by
  cases dg with
  | none =>
    unfold downgrade_step
    exact ⟨hcur, hres⟩
  | some dgl =>
    unfold downgrade_step
    dsimp only
    cases hlk : dgl.lookup current with
    | none => exact ⟨hcur, hres⟩
    | some newD =>
      have hmem := hdg dgl (current, newD) rfl (lookup_mem dgl current newD hlk)
      exact ⟨hmem, hmem⟩

lemma apply_actions_loop_mem (hist : HistFun) (now : Int) (e : Event) :
    ∀ (ms : List MatchedRule) (cur : String) (res : RuleApplyResult),
      (∀ m ∈ ms, label_closed_action m.action) → cur ∈ DECISION_LABELS →
      res.decision ∈ DECISION_LABELS →
      (apply_actions_loop hist now e ms cur res).decision ∈ DECISION_LABELS := by
  intro ms
  induction ms with
  | nil =>
    intro cur res _ _ hres
    exact hres
  | cons m ms ih =>
    intro cur res hms hcur hres
    have hm := hms m (List.mem_cons_self m ms)
    have hrest : ∀ x ∈ ms, label_closed_action x.action :=
      fun x hx => hms x (List.mem_cons_of_mem m hx)
    rw [apply_actions_loop]
    cases hf : m.action.force_decision with
    | some fd => exact hm.1 fd hf
    | none =>
      dsimp only
      have had := downgrade_step_mem m.rule_id (m.rule.description.getD "")
        m.action.downgrade cur res
        (fun dgl p h1 h2 => hm.2 dgl p h1 h2) hcur hres
      cases hl : m.action.limit_per_day with
      | some limit =>
        dsimp only
        split_ifs
        · exact (by decide : ("NEVER" : String) ∈ DECISION_LABELS)
        · exact ih _ _ hrest had.1 had.2
      | none => exact ih _ _ hrest had.1 had.2

lemma rules_match_closed (rules : List Rule) (e : Event)
    (h : ∀ r ∈ rules, label_closed_action r.action) :
    ∀ m ∈ rules_match rules e, label_closed_action m.action := by
  intro m hm
  unfold rules_match at hm
  obtain ⟨r, hr, rfl⟩ := List.mem_map.mp hm
  exact h r (List.mem_filter.mp hr).1

lemma step_rules_mem (hist : HistFun) (now : Int) (e : Event)
    (matched : List MatchedRule) (w : Work)
    (hm : ∀ m ∈ matched, label_closed_action m.action)
    (hw : w.decision ∈ DECISION_LABELS) :
    ((step_rules hist now e matched w).1).decision ∈ DECISION_LABELS := by
  unfold step_rules
  split_ifs
  · exact hw
  · cases hrr : (apply_actions hist now e matched w.decision).explanation_code with
    | some c =>
      dsimp only
      rw [hrr]
      dsimp only
      exact apply_actions_loop_mem hist now e matched w.decision _ hm hw hw
    | none =>
      dsimp only
      rw [hrr]
      exact hw

lemma step_frequency_mem (u : String) (fc : ℕ) (w : Work)
    (hw : w.decision ∈ DECISION_LABELS) :
    (step_frequency u fc w).decision ∈ DECISION_LABELS := by
  unfold step_frequency
  split_ifs
  · exact (by decide : ("LATER" : String) ∈ DECISION_LABELS)
  · exact (by decide : ("NEVER" : String) ∈ DECISION_LABELS)
  · exact hw
  · exact hw

lemma step_noise_mem (hist : HistFun) (now : Int) (e : Event) (w : Work)
    (hw : w.decision ∈ DECISION_LABELS) :
    (step_noise hist now e w).decision ∈ DECISION_LABELS := by
  simp only [step_noise]
  split_ifs
  · exact (by decide : ("LATER" : String) ∈ DECISION_LABELS)
  · exact hw
  · exact hw

lemma step_schedule_mem (e : Event) (fc : ℕ) (w : Work)
    (hw : w.decision ∈ DECISION_LABELS) :
    ((step_schedule e fc w).1).decision ∈ DECISION_LABELS := by
  unfold step_schedule
  split_ifs
  · cases hc : compute_scheduled_time e w.code fc with
    | expired =>
      dsimp only
      exact (by decide : ("NEVER" : String) ∈ DECISION_LABELS)
    | time t =>
      dsimp only
      exact hw
  · exact hw

lemma main_outcome_decision_mem (rules : List Rule) (simFail : Bool) (now : Int)
    (hist : HistFun) (e : Event)
    (hcl : ∀ m ∈ rules_match rules e, label_closed_action m.action) :
    ((main_outcome rules simFail now hist e).1).decision ∈ DECISION_LABELS := by
  unfold main_outcome
  exact step_schedule_mem _ _ _
    (step_noise_mem _ _ _ _
      (step_frequency_mem _ _ _
        (step_rules_mem _ _ _ _ _ hcl (llm_label_mem simFail e))))

/-- Claim C1 (amended): for every raw input event and every rules document
whose `force_decision` values and `downgrade` targets all lie in
`{NOW, LATER, NEVER}` (in particular for well-formed rule documents), the
decision of the output record is one of the three labels.  The restriction
on the rules is necessary: see the counterexample. -/
theorem C1_decision_in_labels (rules_data : List Rule) (simFail : Bool) (now : Int)
    (fid : String) (st : EngineState) (raw : RawEvent)
    (hrules : ∀ r ∈ rules_data, label_closed_action r.action) :
    (process_event (loadRules rules_data) simFail now fid st raw).1.decision ∈
      DECISION_LABELS := by
  unfold process_event
  cases hv : validate_event fid raw with
  | error msg => exact (by decide : ("NEVER" : String) ∈ DECISION_LABELS)
  | ok e =>
    unfold process_validated
    by_cases hd : (dedup_check st.history now e).is_duplicate
    · simp only [hd, eq_self_iff_true, if_true, get_output_record, logger_log]
      exact (by decide : ("NEVER" : String) ∈ DECISION_LABELS)
    · simp [hd, get_output_record, logger_log]
      exact main_outcome_decision_mem (loadRules rules_data) simFail now st.history e
        (rules_match_closed (loadRules rules_data) e
          (fun r hr => hrules r (List.mem_mergeSort.mp hr)))

/-- Claim C1 witness: with an empty (trivially label-closed) rules document
the concrete event's decision is one of the three labels. -/
theorem C1_witness :
    (∀ r ∈ ([] : List Rule), label_closed_action r.action) ∧
    (process_event (loadRules []) false 345600 "gen" emptyState wRaw).1.decision ∈
      DECISION_LABELS :=
  ⟨by simp, C1_decision_in_labels [] false 345600 "gen" emptyState wRaw (by simp)⟩

/-- A rule whose forced decision is not a label. -/
def cxRule : Rule :=
  { id := some "force-maybe", priority := some 1,
    action := { force_decision := some "MAYBE" } }

/-- Claim C1 counterexample: the rule loader accepts a document whose
`force_decision` is the non-label `"MAYBE"`, and processing a valid event
under it produces the decision `"MAYBE"`, outside `{NOW, LATER, NEVER}`. -/
theorem C1_counterexample :
    (process_event (loadRules [cxRule]) false 345600 "gen" emptyState wRaw).1.decision ∉
      DECISION_LABELS := by
  have h : loadRules [cxRule] = [cxRule] := by
    simp [loadRules]
  rw [h]
  decide

/-! ## Claim C2: replaying an event -/

lemma mem_dequeAppend (cap : ℕ) (hcap : 1 ≤ cap) (l : List HistRecord) (r : HistRecord) :
    r ∈ dequeAppend cap l r := by
  unfold dequeAppend
  dsimp only
  have hle : (l ++ [r]).length - cap ≤ l.length := by
    rw [List.length_append]
    simp
    omega
  rw [List.drop_append_of_le_length hle]
  exact List.mem_append_right _ (by simp)

lemma mem_get_recent (hist : HistFun) (now : Int) (u : String) (w : Int) (r : HistRecord)
    (hr : r ∈ hist u) (ht : now - 60 * w ≤ r.parsed_timestamp) :
    r ∈ get_recent hist now u w := by
  unfold get_recent
  exact List.mem_filter.mpr ⟨hr, by simpa using ht⟩

/-- `process_event` after a successful validation. -/
lemma process_event_ok (rules : List Rule) (simFail : Bool) (now : Int) (fid : String)
    (st : EngineState) (raw : RawEvent) (e : Event)
    (hv : validate_event fid raw = .ok e) :
    process_event rules simFail now fid st raw = process_validated rules simFail now st e := by
  unfold process_event
  simp only [hv]

/-- A non-empty dedupe-key hit short-circuits `check` to
`DUPLICATE_DEDUPE_KEY`. -/
lemma dedup_check_key_hit (hist : HistFun) (now : Int) (e : Event) (k : String)
    (hk : e.dedupe_key = some k) (hk2 : k ≠ "")
    (hne : get_dedupe_key_entries hist now e.user_id k DEDUPE_WINDOW_MINUTES ≠ []) :
    (dedup_check hist now e).is_duplicate = true ∧
      (dedup_check hist now e).duplicate_type = some "DUPLICATE_DEDUPE_KEY" := by
  have hkm : key_matches hist now e =
      get_dedupe_key_entries hist now e.user_id k DEDUPE_WINDOW_MINUTES := by
    simp only [key_matches, hk]
    rw [if_neg hk2]
  simp only [dedup_check]
  rw [hkm, if_neg hne]
  exact ⟨rfl, rfl⟩

/-- A text-similar entry in the window makes `check` report
`DUPLICATE_TEXT_SIMILAR` when no dedupe key is present. -/
lemma dedup_check_text_hit (hist : HistFun) (now : Int) (e : Event)
    (hk : strTruthy e.dedupe_key = false)
    (htext : normalize_text (trimStr (e.title ++ " " ++ e.message)) ≠ "")
    (r : HistRecord)
    (hr : r ∈ get_text_entries hist now e.user_id DEDUPE_WINDOW_MINUTES)
    (hratio : levenshtein_ratio (normalize_text (trimStr (e.title ++ " " ++ e.message)))
        r.normalized_text ≥ TEXT_SIMILARITY_THRESHOLD) :
    (dedup_check hist now e).is_duplicate = true ∧
      (dedup_check hist now e).duplicate_type = some "DUPLICATE_TEXT_SIMILAR" := by
  have hkm : key_matches hist now e = [] := by
    cases hdk : e.dedupe_key with
    | none => simp [key_matches, hdk]
    | some k =>
      rw [hdk] at hk
      simp only [strTruthy] at hk
      simp only [key_matches, hdk]
      rw [if_pos (by simpa using hk)]
  simp only [dedup_check]
  rw [hkm, if_pos rfl, if_neg htext]
  have hfind : ((get_text_entries hist now e.user_id DEDUPE_WINDOW_MINUTES).find?
      (fun rr => decide (levenshtein_ratio
        (normalize_text (trimStr (e.title ++ " " ++ e.message))) rr.normalized_text ≥
          TEXT_SIMILARITY_THRESHOLD))).isSome = true := by
    rw [List.find?_isSome]
    exact ⟨r, hr, by simpa using hratio⟩
  cases hf : (get_text_entries hist now e.user_id DEDUPE_WINDOW_MINUTES).find?
      (fun rr => decide (levenshtein_ratio
        (normalize_text (trimStr (e.title ++ " " ++ e.message))) rr.normalized_text ≥
          TEXT_SIMILARITY_THRESHOLD)) with
  | none =>
    rw [hf] at hfind
    simp at hfind
  | some rr => exact ⟨rfl, rfl⟩

/-- A reported duplicate makes the pipeline emit `NEVER` with the
duplicate type as explanation code. -/
lemma process_validated_dup (rules : List Rule) (simFail : Bool) (now : Int)
    (st : EngineState) (e : Event)
    (hdup : (dedup_check st.history now e).is_duplicate = true) :
    (process_validated rules simFail now st e).1.decision = "NEVER" ∧
    (process_validated rules simFail now st e).1.explanation_code =
      (dedup_check st.history now e).duplicate_type.getD "" := by
  unfold process_validated
  simp only [hdup, eq_self_iff_true, if_true, get_output_record, logger_log]
  refine ⟨?_, ?_⟩ <;> first | rfl | trivial

/-- Claim C2 (amended): replaying a validated event immediately (same
processing clock, the event's timestamp within the dedupe window of that
clock) yields a duplicate outcome on the second run: `NEVER` with
`DUPLICATE_DEDUPE_KEY` when the event carries a non-empty dedupe key, and
`NEVER` with `DUPLICATE_TEXT_SIMILAR` when it does not but its normalised
text is non-empty.  (The counterexample shows that the text clause is
vacuous for events whose normalised text is empty, and the window
hypothesis is needed because history cutoffs use the wall clock.) -/
theorem C2_replay_is_duplicate (rules : List Rule) (simFail : Bool) (now : Int)
    (fid : String) (st : EngineState) (raw : RawEvent) (e : Event)
    (hv : validate_event fid raw = .ok e)
    (hwin : now - 60 * DEDUPE_WINDOW_MINUTES ≤ e.parsed_timestamp) :
    (strTruthy e.dedupe_key = true →
      (process_event rules simFail now fid
        (process_event rules simFail now fid st raw).2 raw).1.decision = "NEVER" ∧
      (process_event rules simFail now fid
        (process_event rules simFail now fid st raw).2 raw).1.explanation_code =
        "DUPLICATE_DEDUPE_KEY") ∧
    (strTruthy e.dedupe_key = false →
      normalize_text (trimStr (e.title ++ " " ++ e.message)) ≠ "" →
      (process_event rules simFail now fid
        (process_event rules simFail now fid st raw).2 raw).1.decision = "NEVER" ∧
      (process_event rules simFail now fid
        (process_event rules simFail now fid st raw).2 raw).1.explanation_code =
        "DUPLICATE_TEXT_SIMILAR") := by
  obtain ⟨d, c, hh⟩ := process_validated_history rules simFail now st e
  have hst1 : (process_event rules simFail now fid st raw).2.history =
      Function.update st.history e.user_id
        (dequeAppend HISTORY_BUFFER_SIZE (st.history e.user_id) (mk_record e d c)) := by
    rw [process_event_ok rules simFail now fid st raw e hv]
    exact hh
  have hrec_mem : mk_record e d c ∈
      (process_event rules simFail now fid st raw).2.history e.user_id := by
    rw [hst1, Function.update_same]
    exact mem_dequeAppend HISTORY_BUFFER_SIZE (by norm_num [HISTORY_BUFFER_SIZE]) _ _
  rw [process_event_ok rules simFail now fid
    ((process_event rules simFail now fid st raw).2) raw e hv]
  constructor
  · intro hkey
    obtain ⟨k, hk, hk2⟩ : ∃ k, e.dedupe_key = some k ∧ k ≠ "" := by
      cases hdk : e.dedupe_key with
      | none =>
        rw [hdk] at hkey
        simp [strTruthy] at hkey
      | some k =>
        rw [hdk] at hkey
        simp only [strTruthy] at hkey
        exact ⟨k, rfl, by simpa using hkey⟩
    have hmem2 : mk_record e d c ∈ get_dedupe_key_entries
        ((process_event rules simFail now fid st raw).2.history) now e.user_id k
        DEDUPE_WINDOW_MINUTES := by
      unfold get_dedupe_key_entries
      refine List.mem_filter.mpr ⟨mem_get_recent _ _ _ _ _ hrec_mem hwin, ?_⟩
      simp [mk_record, hk]
    have hne : get_dedupe_key_entries
        ((process_event rules simFail now fid st raw).2.history) now e.user_id k
        DEDUPE_WINDOW_MINUTES ≠ [] := by
      intro hnil
      rw [hnil] at hmem2
      exact absurd hmem2 (List.not_mem_nil _)
    have hd := dedup_check_key_hit ((process_event rules simFail now fid st raw).2.history)
      now e k hk hk2 hne
    have hpd := process_validated_dup rules simFail now
      ((process_event rules simFail now fid st raw).2) e hd.1
    refine ⟨hpd.1, ?_⟩
    rw [hpd.2, hd.2]
    rfl
  · intro hkey htext
    have hmem2 : mk_record e d c ∈ get_text_entries
        ((process_event rules simFail now fid st raw).2.history) now e.user_id
        DEDUPE_WINDOW_MINUTES := by
      unfold get_text_entries
      refine List.mem_filter.mpr ⟨mem_get_recent _ _ _ _ _ hrec_mem hwin, ?_⟩
      simpa [mk_record] using htext
    have hratio : levenshtein_ratio (normalize_text (trimStr (e.title ++ " " ++ e.message)))
        (mk_record e d c).normalized_text ≥ TEXT_SIMILARITY_THRESHOLD := by
      have : (mk_record e d c).normalized_text =
          normalize_text (trimStr (e.title ++ " " ++ e.message)) := rfl
      rw [this, levenshtein_ratio_self]
      norm_num [TEXT_SIMILARITY_THRESHOLD]
    have hd := dedup_check_text_hit ((process_event rules simFail now fid st raw).2.history)
      now e hkey htext (mk_record e d c) hmem2 hratio
    have hpd := process_validated_dup rules simFail now
      ((process_event rules simFail now fid st raw).2) e hd.1
    refine ⟨hpd.1, ?_⟩
    rw [hpd.2, hd.2]
    rfl

/-- A raw event carrying a dedupe key that validates to `wEventKey`. -/
def wRawKey : RawEvent :=
  { event_id := some "e3", user_id := some "u2", event_type := some "message",
    message := some "hello", timestamp := some "1970-01-05T00:00:00+00:00",
    channel := some "push", dedupe_key := some "k1" }

def wEventKey : Event :=
  { event_id := "e3", user_id := "u2", event_type := "message", title := "",
    message := "hello", source := "unknown", priority_hint := none,
    timestamp := "1970-01-05T00:00:00+00:00", parsed_timestamp := 345600,
    channel := "push", metadata := [], dedupe_key := some "k1", expires_at := none }

/-- Claim C2 witness: replaying a keyed event at its own timestamp is
suppressed as a dedupe-key duplicate. -/
theorem C2_witness :
    (process_event [] false 345600 "gen"
      (process_event [] false 345600 "gen" emptyState wRawKey).2 wRawKey).1.decision =
      "NEVER" ∧
    (process_event [] false 345600 "gen"
      (process_event [] false 345600 "gen" emptyState wRawKey).2 wRawKey).1.explanation_code =
      "DUPLICATE_DEDUPE_KEY" :=
  (C2_replay_is_duplicate [] false 345600 "gen" emptyState wRawKey wEventKey (by rfl)
    (by decide)).1 (by rfl)

/-- A keyless event whose text normalises to the empty string. -/
def cxRaw2 : RawEvent :=
  { event_id := some "e2", user_id := some "u1", event_type := some "message",
    message := some "!!!", timestamp := some "1970-01-05T00:00:00+00:00",
    channel := some "push" }

/-- Claim C2 counterexample: replaying a validated keyless event whose
normalised text is empty does not produce a duplicate outcome — the second
run is classified normally (`LATER`/`LLM_DECISION`), against the claim's
unconditional `NEVER`/`DUPLICATE_TEXT_SIMILAR`. -/
theorem C2_counterexample :
    ¬((process_event [] false 345600 "gen"
        (process_event [] false 345600 "gen" emptyState cxRaw2).2 cxRaw2).1.decision =
        "NEVER" ∧
      (process_event [] false 345600 "gen"
        (process_event [] false 345600 "gen" emptyState cxRaw2).2 cxRaw2).1.explanation_code =
        "DUPLICATE_TEXT_SIMILAR") := by
  decide

end EmailAgent
